import Mathlib

/-!
Verification of the subtitle batch-translation engine of the
whisperflow backend (`src/main.py`).

The engine's core is two Python functions:

* `parse_subtitle_block(block, is_vtt)` — parses one blank-line-separated
  chunk of a subtitle document into a timestamp line and a text payload;
* `translate_subtitles(subtitle_text, is_vtt)` — splits a document into
  chunks, classifies each as header / dialogue / raw, batches all dialogue
  texts into one request to an external translation capability, reconciles
  the delimited response positionally, and reconstructs the document.

Documents are modelled as `List Char` (Python `str`).  Python's string
primitives used by the source (`str.split` with a separator, `str.strip`,
`'\n'.join`, `str.startswith`, `in`, and the two regexes
`^\[\d+\]\s*` and `(\d+)\n`) are embedded as executable functions below.
Python's `str.strip`, `\s` and `\d` cover Unicode classes; the embedding
models the ASCII subset, which is exhaustive for every character class
appearing in the claims.  The translation capability is modelled as an
opaque function from the batched request text to `Except Unit (List Char)`;
`Except.error` models the capability raising any exception (the constant
instruction preamble wrapped around the batch text in the source prompt is
a fixed prefix that carries no information, and the capability argument is
universally quantified, so the capability is applied to the batch text).
-/

/-- The ASCII whitespace characters stripped by Python `str.strip()`
(space, tab, newline, carriage return, vertical tab, form feed). -/
def pyWhitespaceChar (c : Char) : Bool :=
  c = ' ' || c = '\t' || c = '\n' || c = '\r' || c = Char.ofNat 11 || c = Char.ofNat 12

/-- Remove leading whitespace (the left half of Python `str.strip()`). -/
def stripLeft : List Char → List Char
  | [] => []
  | c :: rest => if pyWhitespaceChar c then stripLeft rest else c :: rest

/-- Python `str.strip()`: remove leading and trailing whitespace. -/
def pyStrip (s : List Char) : List Char :=
  (stripLeft (stripLeft s).reverse).reverse

/-- Python `str.split(sep)` for a single-character separator `sep`
(used by the source as `block.strip().split('\n')`): all chunks between
occurrences of `sep`, empty chunks included. -/
def splitOnChar (sep : Char) : List Char → List (List Char)
  | [] => [[]]
  | c :: rest =>
    if c = sep then [] :: splitOnChar sep rest
    else
      match splitOnChar sep rest with
      | r :: rs => (c :: r) :: rs
      | [] => [[c]]

/-- Python `str.split('\n\n')` (used by the source as
`subtitle_text.split(separator)` with `separator = '\n\n'`): scan left to
right, cutting at each non-overlapping occurrence of two consecutive
newlines. -/
def splitNN : List Char → List (List Char)
  | [] => [[]]
  | [c] => [[c]]
  | c1 :: c2 :: rest =>
    if c1 = '\n' ∧ c2 = '\n' then [] :: splitNN rest
    else
      match splitNN (c2 :: rest) with
      | r :: rs => (c1 :: r) :: rs
      | [] => [[c1]]

/-- Fuel-driven Python `str.split(sep)` for an arbitrary non-empty
separator; the fuel (initially `length + 1`) dominates the number of scan
steps, so the fallback arm is never reached from `pySplit`. -/
def pySplitF (sep : List Char) : Nat → List Char → List Char → List (List Char)
  | 0, cur, s => [cur.reverse ++ s]
  | _ + 1, cur, [] => [cur.reverse]
  | fuel + 1, cur, c :: rest =>
    if sep.isPrefixOf (c :: rest) then
      cur.reverse :: pySplitF sep fuel [] (List.drop sep.length (c :: rest))
    else
      pySplitF sep fuel (c :: cur) rest

/-- Python `str.split(sep)` for a non-empty separator (used by the source
as `translated_batch.split('---SUBTITLE---')`). -/
def pySplit (sep s : List Char) : List (List Char) :=
  pySplitF sep (s.length + 1) [] s

/-- Python substring membership `needle in hay`
(used by the source as `'-->' not in lines[0]`). -/
def containsSub (needle : List Char) : List Char → Bool
  | [] => needle.isEmpty
  | c :: rest => needle.isPrefixOf (c :: rest) || containsSub needle rest

/-- The time-range marker `-->` tested by the VTT branch of the parser. -/
def arrowToken : List Char := "-->".toList

/-- The literal VTT header token `WEBVTT`. -/
def webvttToken : List Char := "WEBVTT".toList

/-- The delimiter the source splits the batch response on
(`'---SUBTITLE---'`). -/
def sepToken : List Char := "---SUBTITLE---".toList

/-- The delimiter the source joins the batch request with
(`'\n---SUBTITLE---\n'`). -/
def joinToken : List Char := "\n---SUBTITLE---\n".toList

/-- The blank-line separator `'\n\n'` used for both the parse split and the
reconstruction join. -/
def nnSep : List Char := ['\n', '\n']

/-- The start offset into a chunk's lines computed by
`parse_subtitle_block` (main.py lines 114-121): for VTT, 0 when the first
line contains `-->` and 1 otherwise; for SRT, always 1 (the sequence
number line is skipped). -/
def startIdxFor (is_vtt : Bool) (lines : List (List Char)) : Nat :=
  if is_vtt then (if containsSub arrowToken (lines.headD []) then 0 else 1) else 1

/-- `parse_subtitle_block` (main.py lines 108-133): strip the chunk, split
it into lines, reject chunks with fewer than 3 lines, then take the line
at the computed start offset as the timestamp and the remaining lines,
rejoined with newlines, as the text. -/
def parse_subtitle_block (block : List Char) (is_vtt : Bool) :
    Option (List Char × List Char) :=
  let lines := splitOnChar '\n' (pyStrip block)
  if lines.length < 3 then none
  else
    let start_idx := startIdxFor is_vtt lines
    if start_idx ≥ lines.length then none
    else
      some (lines.getD start_idx [],
            List.intercalate ['\n'] (lines.drop (start_idx + 1)))

/-- The three block shapes built by the first pass of `translate_subtitles`
(main.py lines 151-174): the VTT header chunk, an unparseable raw chunk
(kept verbatim), and a parsed dialogue block (timestamp, text, and the
original chunk retained for sequence-number recovery). -/
inductive PBlock where
  | header (content : List Char)
  | raw (content : List Char)
  | subtitle (timestamp text originalBlock : List Char)
deriving DecidableEq

/-- Classification of the chunk at split index `i` (main.py lines 151-174):
whitespace-only chunks are dropped; for VTT the chunk at index 0 whose
stripped text starts with `WEBVTT` becomes the header; otherwise the chunk
becomes a dialogue block when `parse_subtitle_block` succeeds and a raw
block when it fails. -/
def classifyChunk (is_vtt : Bool) (i : Nat) (block : List Char) : Option PBlock :=
  if pyStrip block = [] then none
  else if is_vtt && i == 0 && webvttToken.isPrefixOf (pyStrip block) then
    some (.header block)
  else
    match parse_subtitle_block block is_vtt with
    | none => some (.raw block)
    | some (ts, text) => some (.subtitle ts text block)

/-- The first pass of `translate_subtitles`: classify every chunk of the
blank-line split, indexed as by Python `enumerate`. -/
def parseBlocks (is_vtt : Bool) (blocks : List (List Char)) : List PBlock :=
  blocks.enum.filterMap fun p => classifyChunk is_vtt p.1 p.2

/-- The texts collected for translation (`texts_to_translate`), in block
order. -/
def dialogueTexts : List PBlock → List (List Char)
  | [] => []
  | .subtitle _ text _ :: bs => text :: dialogueTexts bs
  | _ :: bs => dialogueTexts bs

/-- The `header` variable of `translate_subtitles`: the content of the
header chunk when one was classified (at most one is possible, at split
index 0). -/
def headerOf : List PBlock → Option (List Char)
  | [] => none
  | .header c :: _ => some c
  | _ :: bs => headerOf bs

/-- One numbered entry `[i+1] text` of the batch request
(main.py lines 181-183). -/
def tagOf (i : Nat) (text : List Char) : List Char :=
  '[' :: ((Nat.repr (i + 1)).toList ++ (']' :: ' ' :: text))

/-- The compound batch request `batch_text`: the numbered entries joined
with `'\n---SUBTITLE---\n'`. -/
def batchText (texts : List (List Char)) : List Char :=
  List.intercalate joinToken (texts.enum.map fun p => tagOf p.1 p.2)

/-- The regex substitution `re.sub(r'^\[\d+\]\s*', '', part)`
(main.py line 230): remove one leading bracketed digit tag together with
the whitespace that follows it, when present. -/
def stripNumTag (s : List Char) : List Char :=
  match s with
  | '[' :: rest =>
    let ds := rest.takeWhile Char.isDigit
    if ds = [] then s
    else
      match rest.drop ds.length with
      | ']' :: after => after.dropWhile pyWhitespaceChar
      | _ => s
  | _ => s

/-- Response handling (main.py lines 222-231): strip the raw response,
split it on `'---SUBTITLE---'`, strip each part, drop empty parts, remove
a leading `[N]` tag, and strip the result again. -/
def processResponse (resp : List Char) : List (List Char) :=
  (pySplit sepToken (pyStrip resp)).filterMap fun part =>
    let p := pyStrip part
    if p = [] then none
    else some (pyStrip (stripNumTag p))

/-- The reconciliation loop (main.py lines 233-236): the idx-th translated
string replaces the text of the idx-th dialogue block while both lists
last; trailing dialogue blocks keep their original text and surplus
translated strings are discarded. -/
def applyTranslations : List PBlock → List (List Char) → List PBlock
  | [], _ => []
  | .subtitle tsp txt orig :: bs, [] =>
      .subtitle tsp txt orig :: applyTranslations bs []
  | .subtitle tsp _ orig :: bs, t :: more =>
      .subtitle tsp t orig :: applyTranslations bs more
  | b :: bs, trs => b :: applyTranslations bs trs

/-- The regex match `re.match(r'(\d+)\n', block_data['original_block'])`
(main.py line 259): a non-empty run of leading digits followed immediately
by a newline. -/
def matchSeq (s : List Char) : Option (List Char) :=
  let ds := s.takeWhile Char.isDigit
  if ds = [] then none
  else
    match s.drop ds.length with
    | '\n' :: _ => some ds
    | _ => none

/-- Emission of one block during reconstruction (main.py lines 247-265):
headers are emitted verbatim for VTT and dropped for SRT; raw blocks are
emitted verbatim; dialogue blocks are emitted as `timestamp\ntext` for
VTT, and for SRT as `seq\ntimestamp\ntext` when the sequence number is
recovered from the original chunk, else as `timestamp\ntext`. -/
def emitBlock (is_vtt : Bool) : PBlock → Option (List Char)
  | .header content => if is_vtt then some content else none
  | .raw content => some content
  | .subtitle tsp txt orig =>
    if is_vtt then some (tsp ++ '\n' :: txt)
    else
      match matchSeq orig with
      | some seq => some (seq ++ '\n' :: (tsp ++ '\n' :: txt))
      | none => some (tsp ++ '\n' :: txt)

/-- The block sequence after the translation stage of
`translate_subtitles`: the parsed blocks unchanged when the guard returns
early, when there is nothing to translate, or when the capability raises;
otherwise the parsed blocks with the reconciled translations applied. -/
def pipelineBlocks (subtitle_text : List Char) (is_vtt : Bool) (avail : Bool)
    (respond : List Char → Except Unit (List Char)) : List PBlock :=
  let parsed := parseBlocks is_vtt (splitNN subtitle_text)
  if subtitle_text.isEmpty || !avail then parsed
  else if (dialogueTexts parsed).isEmpty then parsed
  else
    match respond (batchText (dialogueTexts parsed)) with
    | .error _ => parsed
    | .ok r => applyTranslations parsed (processResponse r)

/-- Reconstruction (main.py lines 244-275): emit every block, join with
the blank-line separator, and for VTT defensively prepend the header when
one was seen and the result does not already start with `WEBVTT`. -/
def reconstructFrom (is_vtt : Bool) (headerVal : Option (List Char))
    (finalBlocks : List PBlock) : List Char :=
  let result := List.intercalate nnSep (finalBlocks.filterMap (emitBlock is_vtt))
  match headerVal with
  | some h =>
    if !h.isEmpty && is_vtt && !(webvttToken.isPrefixOf result) then
      h ++ nnSep ++ result
    else result
  | none => result

/-- `translate_subtitles` (main.py lines 136-275).  `avail` models
`PERPLEXITY_AVAILABLE`; `respond` models the single call to the
translation capability, with `Except.error` standing for the capability
raising (the `except` at main.py lines 240-242 then leaves every text
unchanged). -/
def translate_subtitles (subtitle_text : List Char) (is_vtt : Bool) (avail : Bool)
    (respond : List Char → Except Unit (List Char)) : List Char :=
  if subtitle_text.isEmpty || !avail then subtitle_text
  else
    let parsed := parseBlocks is_vtt (splitNN subtitle_text)
    reconstructFrom is_vtt (headerOf parsed)
      (pipelineBlocks subtitle_text is_vtt avail respond)

/-- The untranslated reconstruction of a document: parse and reconstruct
with every dialogue block keeping its original text (the code path of
`translate_subtitles` with no update step). -/
def reconstructUntranslated (subtitle_text : List Char) (is_vtt : Bool) : List Char :=
  let parsed := parseBlocks is_vtt (splitNN subtitle_text)
  reconstructFrom is_vtt (headerOf parsed) parsed

/-! ### Generic list lemmas about `intercalate` and the split functions -/

theorem intercalate_single (sep a : List Char) : List.intercalate sep [a] = a := by
  simp [List.intercalate]

theorem intercalate_cons_cons (sep a b : List Char) (t : List (List Char)) :
    List.intercalate sep (a :: b :: t) = a ++ sep ++ List.intercalate sep (b :: t) := by
  simp [List.intercalate, List.intersperse_cons_cons, List.append_assoc]

theorem intercalate_cons_head (sep r : List Char) (c : Char) (rs : List (List Char)) :
    List.intercalate sep ((c :: r) :: rs) = c :: List.intercalate sep (r :: rs) := by
  cases rs with
  | nil => simp [intercalate_single]
  | cons b t => simp [intercalate_cons_cons]

theorem splitOnChar_ne_nil (sep : Char) (s : List Char) : splitOnChar sep s ≠ [] := by
  cases s with
  | nil => simp [splitOnChar]
  | cons c rest =>
    simp only [splitOnChar]
    split
    · simp
    · split <;> simp

/-- Rejoining the single-character split with its separator recovers the
original string (Python: `sep.join(s.split(sep)) == s`). -/
theorem intercalate_splitOnChar (sep : Char) : ∀ s : List Char,
    List.intercalate [sep] (splitOnChar sep s) = s
  | [] => by simp [splitOnChar, intercalate_single]
  | c :: rest => by
    by_cases hc : c = sep
    · subst hc
      rw [show splitOnChar c (c :: rest) = [] :: splitOnChar c rest by
        simp [splitOnChar]]
      obtain ⟨r, rs, hr⟩ := List.exists_cons_of_ne_nil (splitOnChar_ne_nil c rest)
      rw [hr, intercalate_cons_cons]
      have ih := intercalate_splitOnChar c rest
      rw [hr] at ih
      simp [ih]
    · rw [show splitOnChar sep (c :: rest) =
          (match splitOnChar sep rest with
           | r :: rs => (c :: r) :: rs
           | [] => [[c]]) by
        simp only [splitOnChar]; rw [if_neg hc]]
      obtain ⟨r, rs, hr⟩ := List.exists_cons_of_ne_nil (splitOnChar_ne_nil sep rest)
      rw [hr]
      have ih := intercalate_splitOnChar sep rest
      rw [hr] at ih
      rw [intercalate_cons_head, ih]

theorem splitNN_ne_nil (s : List Char) : splitNN s ≠ [] := by
  match s with
  | [] => simp [splitNN]
  | [c] => simp [splitNN]
  | c1 :: c2 :: rest =>
    simp only [splitNN]
    split
    · simp
    · split <;> simp

/-- Rejoining the blank-line split with the blank-line separator recovers
the original document (Python: `'\n\n'.join(s.split('\n\n')) == s`). -/
theorem intercalate_splitNN : ∀ s : List Char,
    List.intercalate nnSep (splitNN s) = s
  | [] => by simp [splitNN, List.intercalate]
  | [c] => by simp [splitNN, intercalate_single]
  | c1 :: c2 :: rest => by
    by_cases h : c1 = '\n' ∧ c2 = '\n'
    · obtain ⟨h1, h2⟩ := h
      subst h1; subst h2
      rw [show splitNN ('\n' :: '\n' :: rest) = [] :: splitNN rest by
        simp [splitNN]]
      obtain ⟨r, rs, hr⟩ := List.exists_cons_of_ne_nil (splitNN_ne_nil rest)
      rw [hr, intercalate_cons_cons]
      have ih := intercalate_splitNN rest
      rw [hr] at ih
      rw [ih]
      simp [nnSep]
    · rw [show splitNN (c1 :: c2 :: rest) =
          (match splitNN (c2 :: rest) with
           | r :: rs => (c1 :: r) :: rs
           | [] => [[c1]]) by
        simp only [splitNN]; rw [if_neg h]]
      obtain ⟨r, rs, hr⟩ := List.exists_cons_of_ne_nil (splitNN_ne_nil (c2 :: rest))
      rw [hr]
      have ih := intercalate_splitNN (c2 :: rest)
      rw [hr] at ih
      rw [intercalate_cons_head, ih]

/-! ### C1: total translation failure falls back to the untranslated document -/

/-- C1: for every subtitle document and dialect, if the translation
capability raises (any exception: network failure, malformed response,
capability throwing), the pipeline catches it at the batch boundary and
the returned document is byte-identical to the untranslated
reconstruction of that document, so every dialogue block keeps its
original text. -/
theorem translate_subtitles_error_is_untranslated (doc : List Char) (d : Bool)
    (respond : List Char → Except Unit (List Char))
    (hfail : ∀ p, respond p = Except.error ()) :
    translate_subtitles doc d true respond = reconstructUntranslated doc d := by
  cases hd : doc.isEmpty with
  | true =>
    have hnil : doc = [] := by
      cases doc with
      | nil => rfl
      | cons c cs => simp [List.isEmpty] at hd
    subst hnil
    cases d <;> rfl
  | false =>
    have hp : pipelineBlocks doc d true respond = parseBlocks d (splitNN doc) := by
      unfold pipelineBlocks
      simp only [hd, Bool.not_true, Bool.or_false, if_false, Bool.false_eq_true]
      by_cases ht : (dialogueTexts (parseBlocks d (splitNN doc))).isEmpty
      · simp [ht]
      · simp [ht, hfail]
    unfold translate_subtitles reconstructUntranslated
    simp only [hd, Bool.not_true, Bool.or_false, if_false, Bool.false_eq_true, hp]

/-- A well-formed SRT document used as a concrete instance. -/
def w1doc : List Char := "1\n00:00:00,000 --> 00:00:02,000\nhello world".toList

/-- Witness for C1 at a concrete document and an always-raising capability. -/
theorem translate_subtitles_error_is_untranslated_witness :
    translate_subtitles w1doc false true (fun _ => Except.error ()) =
      reconstructUntranslated w1doc false :=
  translate_subtitles_error_is_untranslated w1doc false _ (fun _ => rfl)

/-! ### C3: the no-op cases of the pipeline -/

/-- A document with a trailing blank-line separator: its second chunk is
whitespace-only and is dropped, so the output differs from the input even
though there are zero dialogue blocks. -/
def c3doc : List Char := "x\n\n".toList

/-- C3 counterexample: a document with zero dialogue blocks (and the
capability available) for which the pipeline does not return the input
unchanged: the trailing empty chunk of `"x\n\n"` is dropped and the
output is `"x"`. -/
theorem zero_dialogue_not_input_preserving :
    dialogueTexts (parseBlocks false (splitNN c3doc)) = [] ∧
    translate_subtitles c3doc false true (fun _ => Except.ok []) ≠ c3doc := by
  decide

/-- C3 (amended): if the input is empty or the capability is unavailable,
the pipeline returns the input unchanged; if the document has zero
dialogue blocks, the pipeline returns the untranslated reconstruction,
which may differ from the input when whitespace-only chunks are dropped.
(The pipeline is a total function, so it never raises.) -/
theorem translate_subtitles_noop_cases (doc : List Char) (d avail : Bool)
    (respond : List Char → Except Unit (List Char)) :
    (doc = [] → translate_subtitles doc d avail respond = doc) ∧
    (avail = false → translate_subtitles doc d avail respond = doc) ∧
    (dialogueTexts (parseBlocks d (splitNN doc)) = [] →
      translate_subtitles doc d true respond = reconstructUntranslated doc d) := by
  refine ⟨?_, ?_, ?_⟩
  · intro h
    subst h
    cases d <;> cases avail <;> rfl
  · intro h
    subst h
    simp [translate_subtitles]
  · intro h
    cases hd : doc.isEmpty with
    | true =>
      have hnil : doc = [] := by
        cases doc with
        | nil => rfl
        | cons c cs => simp [List.isEmpty] at hd
      subst hnil
      cases d <;> rfl
    | false =>
      unfold translate_subtitles reconstructUntranslated pipelineBlocks
      simp only [hd, Bool.not_true, Bool.or_false, if_false, Bool.false_eq_true]
      simp [h]

/-- Witness for C3 (amended) at concrete inputs: unavailable capability is
a byte-exact no-op, and a zero-dialogue document yields the untranslated
reconstruction. -/
theorem translate_subtitles_noop_cases_witness :
    translate_subtitles c3doc false false (fun _ => Except.ok []) = c3doc ∧
    translate_subtitles c3doc false true (fun _ => Except.ok []) =
      reconstructUntranslated c3doc false :=
  ⟨(translate_subtitles_noop_cases c3doc false false _).2.1 rfl,
   (translate_subtitles_noop_cases c3doc false true _).2.2 (by decide)⟩

/-! ### C6: the concrete two-block scenario -/

/-- The dialect-A input of the concrete scenario. -/
def c6doc : List Char :=
  ("1\n00:00:00,000 --> 00:00:02,000\nmain kya kar raha hoon\n\n" ++
   "2\n00:00:02,000 --> 00:00:04,000\nthis is english").toList

/-- The capability response of the concrete scenario. -/
def c6resp : List Char :=
  "[1] मैं क्या कर रहा हूँ\n---SUBTITLE---\n[2] this is english".toList

/-- The expected output: block 1 translated, block 2 unchanged, sequence
numbers and timestamp lines identical to the input. -/
def c6expected : List Char :=
  ("1\n00:00:00,000 --> 00:00:02,000\nमैं क्या कर रहा हूँ\n\n" ++
   "2\n00:00:02,000 --> 00:00:04,000\nthis is english").toList

/-- C6: on the concrete dialect-A input with the concrete delimited
response, the pipeline yields block 1 with the translated text, block 2
with text `this is english`, and both sequence numbers and timestamp
lines identical to the input. -/
theorem concrete_scenario_batch_translation :
    translate_subtitles c6doc false true (fun _ => Except.ok c6resp) = c6expected := by
  decide

/-! ### C7: the minimum viable chunk -/

/-- A VTT chunk with exactly 2 usable lines after the computed start
offset 0 (the first line contains the time-range marker). -/
def c7chunk : List Char := "00:00:00,000 --> 00:00:02,000\nhello".toList

/-- C7 counterexample: a dialect-B chunk with exactly 2 usable lines after
the computed start offset is rejected by the parser (the `len(lines) < 3`
guard fires first) and is classified as a raw block, not a dialogue
block. -/
theorem min_viable_vtt_chunk_is_raw :
    startIdxFor true (splitOnChar '\n' (pyStrip c7chunk)) = 0 ∧
    (splitOnChar '\n' (pyStrip c7chunk)).length -
      startIdxFor true (splitOnChar '\n' (pyStrip c7chunk)) = 2 ∧
    parse_subtitle_block c7chunk true = none ∧
    classifyChunk true 1 c7chunk = some (.raw c7chunk) := by
  decide

/-- C7 (amended): a chunk whose stripped text has at least 3 lines is
parsed as a dialogue block for both dialects; for dialect B, 2 usable
lines after the computed start offset are sufficient only when the chunk
has at least 3 lines in total, and a 2-line chunk is raw even when both
lines are usable. -/
theorem parse_block_succeeds_with_three_lines (chunk : List Char) (d : Bool)
    (h : 3 ≤ (splitOnChar '\n' (pyStrip chunk)).length) :
    (parse_subtitle_block chunk d).isSome = true := by
  simp only [parse_subtitle_block]
  have hlt : ¬ ((splitOnChar '\n' (pyStrip chunk)).length < 3) := by omega
  rw [if_neg hlt]
  have hstart : startIdxFor d (splitOnChar '\n' (pyStrip chunk)) ≤ 1 := by
    unfold startIdxFor
    cases d
    · simp
    · simp only [if_true]
      split <;> simp
  have hge : ¬ (startIdxFor d (splitOnChar '\n' (pyStrip chunk)) ≥
      (splitOnChar '\n' (pyStrip chunk)).length) := by omega
  rw [if_neg hge]
  rfl

/-- A minimal 3-line SRT chunk. -/
def w7chunk : List Char := "1\n00:00:00,000 --> 00:00:02,000\nhello".toList

/-- Witness for C7 (amended) at a concrete 3-line chunk. -/
theorem parse_block_succeeds_with_three_lines_witness :
    3 ≤ (splitOnChar '\n' (pyStrip w7chunk)).length ∧
    (parse_subtitle_block w7chunk false).isSome = true :=
  ⟨by decide, parse_block_succeeds_with_three_lines w7chunk false (by decide)⟩

/-! ### C4: positional reconciliation -/

/-- Whether a block is a dialogue block. -/
def isDialogue : PBlock → Bool
  | .subtitle _ _ _ => true
  | _ => false

/-- The number of dialogue blocks among the first `i` blocks: the
reconciliation position of the dialogue block at index `i`. -/
def subCountBefore (blocks : List PBlock) (i : Nat) : Nat :=
  ((blocks.take i).filter isDialogue).length

theorem subCountBefore_zero (bs : List PBlock) : subCountBefore bs 0 = 0 := rfl

theorem subCountBefore_cons_succ (b : PBlock) (bs : List PBlock) (i : Nat) :
    subCountBefore (b :: bs) (i + 1) =
      (if isDialogue b then 1 else 0) + subCountBefore bs i := by
  simp only [subCountBefore, List.take_succ_cons, List.filter_cons]
  split <;> simp [Nat.add_comm]

/-- Pointwise description of the reconciliation loop: the block at index
`i` keeps its position; a dialogue block receives the translated string at
its dialogue position when one exists and keeps its text otherwise; all
other fields and blocks are unchanged. -/
theorem applyTranslations_get? : ∀ (bs : List PBlock) (trs : List (List Char)) (i : Nat),
    (applyTranslations bs trs).get? i =
      (bs.get? i).map fun b =>
        match b with
        | .subtitle tsp txt orig =>
            .subtitle tsp (trs.getD (subCountBefore bs i) txt) orig
        | b2 => b2
  | [], trs, i => by simp [applyTranslations]
  | .header c :: bs, trs, i => by
    cases i with
    | zero => simp [applyTranslations, subCountBefore_zero]
    | succ i =>
      simp only [applyTranslations, List.get?_cons_succ]
      rw [applyTranslations_get? bs trs i]
      simp [subCountBefore_cons_succ, isDialogue]
  | .raw c :: bs, trs, i => by
    cases i with
    | zero => simp [applyTranslations, subCountBefore_zero]
    | succ i =>
      simp only [applyTranslations, List.get?_cons_succ]
      rw [applyTranslations_get? bs trs i]
      simp [subCountBefore_cons_succ, isDialogue]
  | .subtitle tsp txt orig :: bs, [], i => by
    cases i with
    | zero => simp [applyTranslations, subCountBefore_zero]
    | succ i =>
      simp only [applyTranslations, List.get?_cons_succ]
      rw [applyTranslations_get? bs [] i]
      cases hbi : bs.get? i with
      | none => rfl
      | some b2 => cases b2 <;> simp [List.getD]
  | .subtitle tsp txt orig :: bs, t :: more, i => by
    cases i with
    | zero => simp [applyTranslations, subCountBefore_zero]
    | succ i =>
      simp only [applyTranslations, List.get?_cons_succ]
      rw [applyTranslations_get? bs more i]
      simp only [subCountBefore_cons_succ, isDialogue, if_true, List.getD_cons_succ]
      cases hbi : bs.get? i with
      | none => rfl
      | some b2 =>
        cases b2 <;> simp [Nat.add_comm, List.getD_cons_succ]

theorem applyTranslations_length : ∀ (bs : List PBlock) (trs : List (List Char)),
    (applyTranslations bs trs).length = bs.length
  | [], _ => rfl
  | .header c :: bs, trs => by
    simp [applyTranslations, applyTranslations_length bs trs]
  | .raw c :: bs, trs => by
    simp [applyTranslations, applyTranslations_length bs trs]
  | .subtitle tsp txt orig :: bs, [] => by
    simp [applyTranslations, applyTranslations_length bs []]
  | .subtitle tsp txt orig :: bs, t :: more => by
    simp [applyTranslations, applyTranslations_length bs more]

/-- C4: for every parsed block sequence and every translation response,
the strings the response splits into are applied to dialogue blocks in
collection order, one-to-one, stopping when either list is exhausted:
a dialogue block whose dialogue position has no matching segment keeps
its original text, surplus segments are discarded, and every timestamp,
original chunk (hence sequence number) and non-dialogue block is
unchanged, at an unchanged position. -/
theorem response_reconciliation_prefix_aligned (bs : List PBlock) (resp : List Char) :
    (applyTranslations bs (processResponse resp)).length = bs.length ∧
    ∀ i : Nat, (applyTranslations bs (processResponse resp)).get? i =
      (bs.get? i).map fun b =>
        match b with
        | .subtitle tsp txt orig =>
            .subtitle tsp ((processResponse resp).getD (subCountBefore bs i) txt) orig
        | b2 => b2 :=
  ⟨applyTranslations_length bs (processResponse resp),
   fun i => applyTranslations_get? bs (processResponse resp) i⟩

/-! ### C5: only text fields change, order is preserved -/

/-- Two blocks that agree on everything except possibly the dialogue
text: same constructor, same header or raw content, same timestamp and
same original chunk (hence same sequence number). -/
def sameExceptText : PBlock → PBlock → Prop
  | .header c, .header c2 => c = c2
  | .raw c, .raw c2 => c = c2
  | .subtitle tsp _ orig, .subtitle tsp2 _ orig2 => tsp = tsp2 ∧ orig = orig2
  | _, _ => False

theorem sameExceptText_refl (b : PBlock) : sameExceptText b b := by
  cases b <;> simp [sameExceptText]

theorem forall2_sameExceptText_self (bs : List PBlock) :
    List.Forall₂ sameExceptText bs bs := by
  induction bs with
  | nil => exact List.Forall₂.nil
  | cons b bs ih => exact List.Forall₂.cons (sameExceptText_refl b) ih

theorem forall2_sameExceptText_applyTranslations :
    ∀ (bs : List PBlock) (trs : List (List Char)),
      List.Forall₂ sameExceptText bs (applyTranslations bs trs)
  | [], _ => List.Forall₂.nil
  | .header _ :: bs, trs =>
    List.Forall₂.cons (sameExceptText_refl _)
      (forall2_sameExceptText_applyTranslations bs trs)
  | .raw _ :: bs, trs =>
    List.Forall₂.cons (sameExceptText_refl _)
      (forall2_sameExceptText_applyTranslations bs trs)
  | .subtitle _ _ _ :: bs, [] =>
    List.Forall₂.cons ⟨rfl, rfl⟩
      (forall2_sameExceptText_applyTranslations bs [])
  | .subtitle _ _ _ :: bs, _ :: more =>
    List.Forall₂.cons ⟨rfl, rfl⟩
      (forall2_sameExceptText_applyTranslations bs more)

/-- C5: for every input document, dialect and translation outcome, the
block sequence after the translation stage lists the same blocks in the
same order as the parse of the input, and only the text field of dialogue
blocks may differ: header content, raw content, timestamp lines and the
retained original chunks (hence sequence numbers) are unchanged. -/
theorem pipeline_preserves_block_structure (doc : List Char) (d avail : Bool)
    (respond : List Char → Except Unit (List Char)) :
    List.Forall₂ sameExceptText (parseBlocks d (splitNN doc))
      (pipelineBlocks doc d avail respond) := by
  unfold pipelineBlocks
  dsimp only
  split
  · exact forall2_sameExceptText_self _
  · split
    · exact forall2_sameExceptText_self _
    · split
      · exact forall2_sameExceptText_self _
      · exact forall2_sameExceptText_applyTranslations _ _

/-! ### C8: header classification -/

/-- A VTT document whose blank-line split starts with a whitespace-only
chunk: the `WEBVTT` chunk sits at split index 1. -/
def c8doc : List Char := "\n\nWEBVTT\n\n00:00:00.000 --> 00:00:01.000\nhi".toList

/-- C8 counterexample: in `c8doc` the first non-empty chunk is `WEBVTT`
and begins with the header token, yet the parser classifies it as a raw
block, because the header branch requires the chunk to sit at split index
0, not merely to be the first non-empty chunk. -/
theorem header_not_first_nonempty_chunk :
    ((splitNN c8doc).find? fun c => !(pyStrip c).isEmpty) = some "WEBVTT".toList ∧
    webvttToken.isPrefixOf (pyStrip "WEBVTT".toList) = true ∧
    (parseBlocks true (splitNN c8doc)).head? = some (.raw "WEBVTT".toList) := by
  decide

/-- C8 (amended): for a dialect-B document, the chunk at index 0 of the
blank-line split is classified as the header block (and not structurally
parsed further) when it is not whitespace-only and its stripped text
begins with the literal header token; a first non-empty chunk at a later
index is not given header treatment. -/
theorem webvtt_header_at_index_zero (doc c : List Char) (rest : List (List Char))
    (h1 : splitNN doc = c :: rest) (h2 : pyStrip c ≠ [])
    (h3 : webvttToken.isPrefixOf (pyStrip c) = true) :
    (parseBlocks true (splitNN doc)).head? = some (.header c) := by
  rw [h1]
  have hc : classifyChunk true 0 c = some (.header c) := by
    unfold classifyChunk
    rw [if_neg h2, if_pos (by simp [h3])]
  unfold parseBlocks
  rw [show (c :: rest).enum = (0, c) :: List.enumFrom 1 rest from rfl]
  rw [List.filterMap_cons]
  simp [hc]

/-- A VTT document whose header chunk is at split index 0. -/
def w8doc : List Char := "WEBVTT\n\n00:00:00.000 --> 00:00:01.000\nhi".toList

/-- Witness for C8 (amended) at a concrete VTT document. -/
theorem webvtt_header_at_index_zero_witness :
    splitNN w8doc = "WEBVTT".toList ::
        ["00:00:00.000 --> 00:00:01.000\nhi".toList] ∧
    pyStrip "WEBVTT".toList ≠ [] ∧
    webvttToken.isPrefixOf (pyStrip "WEBVTT".toList) = true ∧
    (parseBlocks true (splitNN w8doc)).head? = some (.header "WEBVTT".toList) :=
  ⟨by decide, by decide, by decide,
   webvtt_header_at_index_zero w8doc "WEBVTT".toList
     ["00:00:00.000 --> 00:00:01.000\nhi".toList] (by decide) (by decide) (by decide)⟩

/-! ### C9: raw chunks are preserved verbatim -/

/-- Whether a block is the header block. -/
def isHeaderB : PBlock → Bool
  | .header _ => true
  | _ => false

theorem classifyChunk_false_not_header (i : Nat) (c : List Char) (b : PBlock)
    (h : classifyChunk false i c = some b) : isHeaderB b = false := by
  unfold classifyChunk at h
  by_cases h1 : pyStrip c = []
  · rw [if_pos h1] at h
    cases h
  · rw [if_neg h1, if_neg (by simp)] at h
    cases hp : parse_subtitle_block c false with
    | none =>
      rw [hp] at h
      cases h
      rfl
    | some v =>
      obtain ⟨ts, txt⟩ := v
      rw [hp] at h
      cases h
      rfl

theorem parseBlocks_false_no_header (chunks : List (List Char)) :
    ∀ b ∈ parseBlocks false chunks, isHeaderB b = false := by
  intro b hb
  unfold parseBlocks at hb
  obtain ⟨p, _, hcl⟩ := List.mem_filterMap.mp hb
  exact classifyChunk_false_not_header p.1 p.2 b hcl

theorem applyTranslations_no_header :
    ∀ (bs : List PBlock) (trs : List (List Char)),
      (∀ b ∈ bs, isHeaderB b = false) →
      ∀ b ∈ applyTranslations bs trs, isHeaderB b = false
  | [], trs, _, b, hb => by simp [applyTranslations] at hb
  | .header c :: bs, trs, h, b, hb => by
    have := h (.header c) (List.mem_cons_self _ _)
    simp [isHeaderB] at this
  | .raw c :: bs, trs, h, b, hb => by
    simp only [applyTranslations, List.mem_cons] at hb
    rcases hb with rfl | hb
    · rfl
    · exact applyTranslations_no_header bs trs
        (fun x hx => h x (List.mem_cons_of_mem _ hx)) b hb
  | .subtitle tsp txt orig :: bs, [], h, b, hb => by
    simp only [applyTranslations, List.mem_cons] at hb
    rcases hb with rfl | hb
    · rfl
    · exact applyTranslations_no_header bs []
        (fun x hx => h x (List.mem_cons_of_mem _ hx)) b hb
  | .subtitle tsp txt orig :: bs, t :: more, h, b, hb => by
    simp only [applyTranslations, List.mem_cons] at hb
    rcases hb with rfl | hb
    · rfl
    · exact applyTranslations_no_header bs more
        (fun x hx => h x (List.mem_cons_of_mem _ hx)) b hb

theorem emitBlock_isSome_vtt (b : PBlock) : (emitBlock true b).isSome = true := by
  cases b <;> simp [emitBlock]

theorem emitBlock_isSome_not_header (b : PBlock) (h : isHeaderB b = false) :
    (emitBlock false b).isSome = true := by
  cases b with
  | header c => simp [isHeaderB] at h
  | raw c => simp [emitBlock]
  | subtitle tsp txt orig =>
    simp only [emitBlock]
    cases matchSeq orig <;> simp

theorem filterMap_get?_all_isSome {α β : Type} (f : α → Option β) :
    ∀ (l : List α), (∀ b ∈ l, (f b).isSome = true) → ∀ (i : Nat),
      (l.filterMap f).get? i = (l.get? i).bind f
  | [], _, i => by simp
  | a :: l, h, i => by
    obtain ⟨v, hv⟩ := Option.isSome_iff_exists.mp (h a (List.mem_cons_self a l))
    cases i with
    | zero => simp [List.filterMap_cons, hv]
    | succ i =>
      simp only [List.filterMap_cons, hv, List.get?_cons_succ]
      exact filterMap_get?_all_isSome f l
        (fun b hb => h b (List.mem_cons_of_mem a hb)) i

theorem applyTranslations_get?_raw (bs : List PBlock) (trs : List (List Char))
    (i : Nat) (c : List Char) (h : bs.get? i = some (.raw c)) :
    (applyTranslations bs trs).get? i = some (.raw c) := by
  rw [applyTranslations_get? bs trs i, h]
  rfl

/-- C9: for every input document, dialect and translation outcome, a
chunk that failed structural parsing (a raw block) is emitted in the
output at its own position, byte-identical to the original chunk text:
never translated and never reordered. -/
theorem raw_blocks_byte_identical (doc : List Char) (d avail : Bool)
    (respond : List Char → Except Unit (List Char)) (i : Nat) (c : List Char)
    (h : (parseBlocks d (splitNN doc)).get? i = some (.raw c)) :
    ((pipelineBlocks doc d avail respond).filterMap (emitBlock d)).get? i = some c := by
  have hpb : (pipelineBlocks doc d avail respond).get? i = some (.raw c) := by
    unfold pipelineBlocks
    dsimp only
    split
    · exact h
    · split
      · exact h
      · split
        · exact h
        · exact applyTranslations_get?_raw _ _ _ _ h
  have hall : ∀ b ∈ pipelineBlocks doc d avail respond, (emitBlock d b).isSome = true := by
    cases d with
    | true => exact fun b _ => emitBlock_isSome_vtt b
    | false =>
      have hnh : ∀ b ∈ pipelineBlocks doc false avail respond, isHeaderB b = false := by
        unfold pipelineBlocks
        dsimp only
        split
        · exact parseBlocks_false_no_header _
        · split
          · exact parseBlocks_false_no_header _
          · split
            · exact parseBlocks_false_no_header _
            · exact applyTranslations_no_header _ _ (parseBlocks_false_no_header _)
      exact fun b hb => emitBlock_isSome_not_header b (hnh b hb)
  rw [filterMap_get?_all_isSome _ _ hall i, hpb]
  rfl

/-- A document whose single chunk is unparseable (fewer than 3 lines). -/
def w9doc : List Char := "hello".toList

/-- Witness for C9 at a concrete raw-only document. -/
theorem raw_blocks_byte_identical_witness :
    (parseBlocks false (splitNN w9doc)).get? 0 = some (.raw "hello".toList) ∧
    ((pipelineBlocks w9doc false true (fun _ => Except.ok [])).filterMap
        (emitBlock false)).get? 0 = some "hello".toList :=
  ⟨by decide,
   raw_blocks_byte_identical w9doc false true (fun _ => Except.ok [])
     0 "hello".toList (by decide)⟩

/-! ### C10: the SRT parse performs no content checks and the
reconstruction silently drops a non-numeric first line -/

/-- C10: for dialect A, every chunk whose stripped text has at least 3
lines is parsed as a dialogue block whose timestamp is the second line
and whose text is the remaining lines, with no check that the first line
is numeric or that the second line contains the time-range marker; and
when the chunk does not start with a digit run followed by a newline, the
reconstruction emits only the timestamp and text lines, i.e. exactly the
lines from index 1 on — the chunk's first line is silently dropped, even
with no translation applied. -/
theorem srt_unchecked_parse_drops_first_line (chunk : List Char)
    (h3 : 3 ≤ (splitOnChar '\n' (pyStrip chunk)).length)
    (hseq : matchSeq chunk = none) :
    parse_subtitle_block chunk false =
      some ((splitOnChar '\n' (pyStrip chunk)).getD 1 [],
        List.intercalate ['\n'] ((splitOnChar '\n' (pyStrip chunk)).drop 2)) ∧
    emitBlock false
      (.subtitle ((splitOnChar '\n' (pyStrip chunk)).getD 1 [])
        (List.intercalate ['\n'] ((splitOnChar '\n' (pyStrip chunk)).drop 2)) chunk) =
      some (List.intercalate ['\n'] ((splitOnChar '\n' (pyStrip chunk)).drop 1)) := by
  constructor
  · simp only [parse_subtitle_block]
    rw [if_neg (by omega)]
    rw [show startIdxFor false (splitOnChar '\n' (pyStrip chunk)) = 1 from rfl]
    rw [if_neg (by omega)]
  · simp only [emitBlock, hseq, Bool.false_eq_true, if_false]
    rcases hls : splitOnChar '\n' (pyStrip chunk) with _ | ⟨l0, _ | ⟨l1, _ | ⟨l2, rest⟩⟩⟩ <;>
      rw [hls] at h3 <;> simp at h3 ⊢
    rw [intercalate_cons_cons]
    simp

/-- A 3-line chunk whose first line is not numeric. -/
def w10chunk : List Char := "abc\n00:00:00,000 --> 00:00:02,000\nhello".toList

/-- Witness for C10 at a concrete chunk with a non-numeric first line. -/
theorem srt_unchecked_parse_drops_first_line_witness :
    3 ≤ (splitOnChar '\n' (pyStrip w10chunk)).length ∧
    matchSeq w10chunk = none ∧
    (parse_subtitle_block w10chunk false =
      some ((splitOnChar '\n' (pyStrip w10chunk)).getD 1 [],
        List.intercalate ['\n'] ((splitOnChar '\n' (pyStrip w10chunk)).drop 2)) ∧
    emitBlock false
      (.subtitle ((splitOnChar '\n' (pyStrip w10chunk)).getD 1 [])
        (List.intercalate ['\n'] ((splitOnChar '\n' (pyStrip w10chunk)).drop 2)) w10chunk) =
      some (List.intercalate ['\n'] ((splitOnChar '\n' (pyStrip w10chunk)).drop 1))) :=
  ⟨by decide, by decide,
   srt_unchecked_parse_drops_first_line w10chunk (by decide) (by decide)⟩

/-! ### C2: the untranslated round trip on well-formed SRT documents -/

theorem takeWhile_append_all (p : Char → Bool) :
    ∀ (xs ys : List Char), (∀ x ∈ xs, p x = true) →
      (xs ++ ys).takeWhile p = xs ++ ys.takeWhile p
  | [], _, _ => rfl
  | x :: xs, ys, h => by
    simp only [List.cons_append, List.takeWhile_cons, h x (List.mem_cons_self x xs),
      if_true]
    rw [takeWhile_append_all p xs ys fun a ha => h a (List.mem_cons_of_mem x ha)]

/-- The sequence-number regex succeeds on a chunk that starts with a
non-empty digit run followed by a newline, capturing exactly that run. -/
theorem matchSeq_of_digits_head (l0 tail : List Char)
    (h0 : l0 ≠ []) (hd : ∀ x ∈ l0, x.isDigit = true) :
    matchSeq (l0 ++ '\n' :: tail) = some l0 := by
  have ht : (l0 ++ '\n' :: tail).takeWhile Char.isDigit = l0 := by
    rw [takeWhile_append_all Char.isDigit l0 ('\n' :: tail) hd]
    simp [List.takeWhile_cons]
  simp only [matchSeq, ht]
  rw [if_neg h0, List.drop_left]
  rfl

/-- A well-formed dialect-A chunk: strip-invariant, at least 3 lines, and
a non-empty all-digit first line (the SRT sequence number). -/
def wfChunkA (c : List Char) : Bool :=
  decide (pyStrip c = c) &&
  decide (3 ≤ (splitOnChar '\n' c).length) &&
  decide ((splitOnChar '\n' c).headD [] ≠ []) &&
  ((splitOnChar '\n' c).headD []).all Char.isDigit

/-- A well-formed dialect-A document: every chunk of the blank-line split
is a well-formed chunk (in particular no chunk is empty or whitespace-only
and the document carries no stray separator whitespace). -/
def wellFormedA (doc : List Char) : Bool :=
  (splitNN doc).all wfChunkA

/-- A well-formed chunk is classified as a dialogue block and is emitted
back byte-identically. -/
theorem wfChunkA_classify_emit (c : List Char) (h : wfChunkA c = true) (i : Nat) :
    ∃ ts txt, classifyChunk false i c = some (.subtitle ts txt c) ∧
      emitBlock false (.subtitle ts txt c) = some c := by
  simp only [wfChunkA, Bool.and_eq_true, decide_eq_true_eq, List.all_eq_true] at h
  obtain ⟨⟨⟨hs, hlen⟩, hne⟩, hdig⟩ := h
  rcases hls : splitOnChar '\n' c with _ | ⟨l0, _ | ⟨l1, _ | ⟨l2, rest⟩⟩⟩ <;>
    rw [hls] at hlen <;> simp at hlen
  rw [hls] at hne hdig
  simp only [List.headD_cons] at hne hdig
  have hceq : c = l0 ++ '\n' :: List.intercalate ['\n'] (l1 :: l2 :: rest) := by
    conv_lhs => rw [← intercalate_splitOnChar '\n' c, hls, intercalate_cons_cons]
    simp
  have hcne : c ≠ [] := by
    rw [hceq]
    simp
  have hseq : matchSeq c = some l0 := by
    rw [hceq]
    exact matchSeq_of_digits_head l0 _ hne hdig
  have hparse : parse_subtitle_block c false =
      some (l1, List.intercalate ['\n'] (l2 :: rest)) := by
    simp only [parse_subtitle_block, hs, hls]
    rw [if_neg (by simp)]
    rw [show startIdxFor false (l0 :: l1 :: l2 :: rest) = 1 from rfl]
    rw [if_neg (by simp)]
    rfl
  refine ⟨l1, List.intercalate ['\n'] (l2 :: rest), ?_, ?_⟩
  · unfold classifyChunk
    rw [if_neg (by rw [hs]; exact hcne), if_neg (by simp), hparse]
  · simp only [emitBlock, Bool.false_eq_true, if_false, hseq]
    rw [hceq, intercalate_cons_cons]
    simp

/-- On a list of well-formed chunks the first pass classifies every chunk
as a dialogue block, no header is recorded, and emission restores the
chunk list byte-identically (regardless of the enumeration offset). -/
theorem parseBlocks_wf_emit : ∀ (n : Nat) (chunks : List (List Char)),
    (∀ c ∈ chunks, wfChunkA c = true) →
    (((chunks.enumFrom n).filterMap fun p => classifyChunk false p.1 p.2).filterMap
        (emitBlock false) = chunks ∧
     headerOf ((chunks.enumFrom n).filterMap fun p => classifyChunk false p.1 p.2) = none)
  | _, [], _ => by simp [headerOf]
  | n, c :: cs, h => by
    obtain ⟨ts, txt, hcl, hem⟩ :=
      wfChunkA_classify_emit c (h c (List.mem_cons_self _ _)) n
    obtain ⟨ih1, ih2⟩ :=
      parseBlocks_wf_emit (n + 1) cs fun x hx => h x (List.mem_cons_of_mem _ hx)
    rw [show (c :: cs).enumFrom n = (n, c) :: cs.enumFrom (n + 1) from rfl]
    rw [List.filterMap_cons]
    simp only [hcl]
    rw [List.filterMap_cons]
    simp only [hem]
    constructor
    · rw [ih1]
    · simp only [headerOf]
      exact ih2

/-- C2: for every well-formed dialect-A document, the untranslated
pipeline `reconstruct(parse(d))` reproduces the document byte for byte,
including sequence numbers and the blank-line separators. -/
theorem reconstruct_parse_roundtrip_wf_srt (doc : List Char)
    (h : wellFormedA doc = true) :
    reconstructUntranslated doc false = doc := by
  unfold wellFormedA at h
  have hall : ∀ c ∈ splitNN doc, wfChunkA c = true := List.all_eq_true.mp h
  obtain ⟨hemit, hheader⟩ := parseBlocks_wf_emit 0 (splitNN doc) hall
  unfold reconstructUntranslated reconstructFrom parseBlocks
  dsimp only
  rw [show (splitNN doc).enum = (splitNN doc).enumFrom 0 from rfl]
  rw [hheader, hemit, intercalate_splitNN]

/-- A well-formed two-block SRT document. -/
def w2doc : List Char :=
  ("1\n00:00:00,000 --> 00:00:02,000\nhello\n\n" ++
   "2\n00:00:02,000 --> 00:00:04,000\nworld").toList

/-- Witness for C2 at a concrete well-formed document. -/
theorem reconstruct_parse_roundtrip_wf_srt_witness :
    wellFormedA w2doc = true ∧ reconstructUntranslated w2doc false = w2doc :=
  ⟨by decide, reconstruct_parse_roundtrip_wf_srt w2doc (by decide)⟩
